import Mathlib

/-!
Verification development for the SocietyAI orchestration engine
(package `societyai`: `models.go` and the main society source file).

Modelling conventions, stated once here:

* A Go `AIModel` interface value is a name plus a `Process` operation.
  `Process(ctx, prompt) (string, error)` is modelled as a pure function
  `String → Except String String` (the `Except.error` case carries the Go
  error's message).  The Go interface value may be `nil`; where nilness
  matters the interface value is modelled as `Option AIModel`.
* Go channels: the buffered `Results` and `errs` channels receive values in
  the order the concurrently launched goroutines complete.  A fan-out call is
  therefore parameterised by `order : List Nat`, the completion order of the
  agents (a permutation of the agent indices); the channel contents are then
  the corresponding lists in that order.  The `Results` channel stored on
  `Agent`/`SocietyGroup` is represented by passing those lists explicitly.
* `for err := range errs { return err }` returns the first error received,
  i.e. the head of the errs-channel contents, or `none` after close.
* Go slice indexing `xs[k]` is modelled by `List.getD xs k default`; the
  out-of-range case (a Go panic, reachable only with an empty model list,
  which every public entry point rejects first) is given by the default
  element and lies outside every theorem's hypotheses.
* Timeouts and context cancellation are not modelled: claims under study
  concern completed capability calls, which either succeed or fail.
-/

namespace SocietyAI

/-- `AIModel` interface of `models.go`: a `Name` and a `Process` operation. -/
structure AIModel where
  name : String
  process : String → Except String String

instance : Inhabited AIModel :=
  ⟨{ name := "", process := fun _ => Except.error "" }⟩

/-- `Agent` of `models.go`.  The `Results chan string` field is modelled by
passing channel contents explicitly (see the file header). -/
structure Agent where
  id : Nat
  model : AIModel
  prompt : String
  phase : Nat
  collabContext : String
  sharedAnalysis : String
  dimensionToExplore : String

instance : Inhabited Agent :=
  ⟨{ id := 0, model := default, prompt := "", phase := 0, collabContext := "",
     sharedAnalysis := "", dimensionToExplore := "" }⟩

/-- `CollaborativeContext` of `models.go`. -/
structure CollaborativeContext where
  initialAnalysis : String := ""
  dimensions : List String := []
  sharedInsights : List String := []

/-- `SocietyGroup` of `models.go`.  The Go `Context` pointer is `nil` in
standard mode; it is modelled by the empty context there (never read). -/
structure SocietyGroup where
  agents : List Agent
  models : List AIModel
  multiModel : Bool
  context : CollaborativeContext

instance : Inhabited SocietyGroup :=
  ⟨{ agents := [], models := [], multiModel := false, context := {} }⟩

/-- `Config` of `models.go`.  `AgentCount` is a Go `int`, hence `Int`. -/
structure Config where
  prompt : String
  agentCount : Int
  multiModel : Bool
  collaborative : Bool

/-- The error values the engine can return (`models.go` common errors plus
the `errors.New` sites of the society file).  `modelFailure` wraps the
message of a failed capability call. -/
inductive SAError where
  | invalidAgentCount
  | noModelsSpecified
  | nilSynthesisModel
  | noAgentsForAnalysis
  | nothingToIntegrate
  | noAgentsForResponse
  | modelFailure (msg : String)
deriving DecidableEq, Repr

/-- The five framing prefixes of `generatePromptForAgent` (`perspectives`). -/
def perspectives : List String :=
  [ "Analyse cette demande de manière factuelle et concise: ",
    "Considère les implications et le contexte plus large de cette demande: ",
    "Identifie les exigences spécifiques et le but de cette demande: ",
    "Réfléchis aux approches les plus innovantes pour répondre à cette demande: ",
    "Examine les aspects techniques et pratiques de cette demande: " ]

/-- `generatePromptForAgent`: prefix the base prompt with
`perspectives[agentID % len(perspectives)]`. -/
def generatePromptForAgent (basePrompt : String) (agentID : Nat) : String :=
  perspectives.getD (agentID % perspectives.length) "" ++ basePrompt

/-- The capability-binding step of the construction loops of `createSociety`
and `createCollaborativeSociety`:
`if config.MultiModel and len(models) > 1 then models[i % len(models)] else models[0]`.
The logic is type-agnostic Go slice selection, so it is stated
polymorphically; at `α := Option AIModel` the element `none` models a Go
`nil` interface value sitting in the caller's slice. -/
def modelForAgent {α : Type} (multiModel : Bool) (models : List α) (d : α) (i : Nat) : α :=
  if multiModel = true ∧ models.length > 1 then
    models.getD (i % models.length) d
  else
    models.getD 0 d

/-- The list of capability references the `createSociety` loop binds, one per
agent index, at the nilable type of Go's `[]AIModel` elements. -/
def createSocietyModelRefs (config : Config) (optModels : List (Option AIModel)) :
    List (Option AIModel) :=
  (List.range config.agentCount.toNat).map (modelForAgent config.multiModel optModels none)

/-- `createSociety`: build the standard-mode pool. -/
def createSociety (config : Config) (models : List AIModel) : SocietyGroup :=
  { agents := (List.range config.agentCount.toNat).map fun i =>
      { id := i
        model := modelForAgent config.multiModel models default i
        prompt := generatePromptForAgent config.prompt i
        phase := 0
        collabContext := ""
        sharedAnalysis := ""
        dimensionToExplore := "" }
    models := models
    multiModel := config.multiModel
    context := {} }

/-- The five dimension labels of `createCollaborativeSociety`. -/
def dimensions : List String :=
  [ "Compréhension fondamentale et factuelle du sujet",
    "Aspects pratiques et mise en œuvre concrète",
    "Implications plus larges et considérations de contexte",
    "Défis potentiels et approches pour les surmonter",
    "Applications pratiques et exemples concrets" ]

/-- `createCollaborativeSociety`: build the collaborative-mode pool.  The
dimension list is truncated to the agent count when longer, and each agent
is assigned `dims[i % len(dims)]`. -/
def createCollaborativeSociety (config : Config) (models : List AIModel) : SocietyGroup :=
  let dims :=
    if (dimensions.length : Int) > config.agentCount then
      dimensions.take config.agentCount.toNat
    else dimensions
  { agents := (List.range config.agentCount.toNat).map fun i =>
      { id := i
        model := modelForAgent config.multiModel models default i
        prompt := config.prompt
        phase := 0
        collabContext := ""
        sharedAnalysis := ""
        dimensionToExplore := dims.getD (i % dims.length) "" }
    models := models
    multiModel := config.multiModel
    context := { initialAnalysis := "", dimensions := dims, sharedInsights := [] } }

/-- `Agent.process`: one standard-dispatch capability call on the agent's
assigned prompt (success goes to the Results channel, failure to errs). -/
def Agent.processCall (a : Agent) : Except String String :=
  a.model.process a.prompt

/-- Contents of the `errs` channel after the `run` fan-out, in completion
order `order`: each failing goroutine contributes its error. -/
def runErrs (agents : List Agent) (order : List Nat) : List String :=
  order.filterMap fun i =>
    match (agents.getD i default).processCall with
    | Except.error e => some e
    | Except.ok _ => none

/-- Contents of the `Results` channel after the `run` fan-out, in completion
order `order`: each succeeding goroutine contributes its response. -/
def runResults (agents : List Agent) (order : List Nat) : List String :=
  order.filterMap fun i => ((agents.getD i default).processCall).toOption

/-- `run`: launch every agent concurrently; return the first error received
from the errs channel, or nil when the channel closes empty. -/
def SocietyGroup.run (s : SocietyGroup) (order : List Nat) : Option SAError :=
  match runErrs s.agents order with
  | [] => none
  | e :: _ => some (SAError.modelFailure e)

/-- `collectResults`: drain one result per agent from the Results channel
(`drained` is the channel contents, in completion order) and render the
report with sequential `Agent k` labels. -/
def collectResults (drained : List String) : String :=
  "Synthèse des analyses des agents:\n\n" ++
    String.join (drained.enum.map fun p =>
      "Agent " ++ toString (p.1 + 1) ++ ": " ++ p.2 ++ "\n\n")

/-- `synthesizeResults`: the deterministic naive concatenation fallback. -/
def synthesizeResults (results : List String) : String :=
  "Synthèse des résultats:\n" ++
    String.join (results.enum.map fun p =>
      "\nAgent " ++ toString (p.1 + 1) ++ ":\n" ++ p.2 ++ "\n")

/-- `SynthesizeWithModel`: build the synthesis prompt from every agent
result and run the dedicated synthesis capability on it. -/
def SynthesizeWithModel (results : List String) (model : AIModel) : Except String String :=
  let prompt :=
    "Analyse et synthétise les perspectives suivantes des agents en une réponse cohérente et approfondie:\n\n" ++
    String.join (results.enum.map fun p =>
      "=== AGENT " ++ toString (p.1 + 1) ++ " ===\n" ++ p.2 ++ "\n\n") ++
    "Ta tâche est de produire une synthèse complète qui:\n" ++
    "1. Identifie les points d\x27accord et de désaccord entre les agents\n" ++
    "2. Combine les perspectives uniques en une vision cohérente\n" ++
    "3. Présente une conclusion qui intègre les meilleures idées de chaque agent\n" ++
    "4. Offre une réponse finale plus complète que chacune des perspectives individuelles\n\n" ++
    "Synthèse:"
  model.process prompt

/-- `collectResultsWithSynthesisModel`: render the individual results, then
ask the synthesis capability for a consolidated conclusion; on its failure
fall back to `synthesizeResults` and append the failure's message as
trailing diagnostic text.  Both branches return a nil error. -/
def collectResultsWithSynthesisModel (drained : List String) (synthesisModel : AIModel) :
    String × Option SAError :=
  let finalResult :=
    "Synthèse des analyses des agents:\n\n" ++
      String.join (drained.enum.map fun p =>
        "Agent " ++ toString (p.1 + 1) ++ ": " ++ p.2 ++ "\n\n")
  match SynthesizeWithModel drained synthesisModel with
  | Except.error e =>
      (finalResult ++ "\nConclusion consolidée (méthode simple - erreur du modèle de synthèse):\n" ++
        synthesizeResults drained ++ "\n\nErreur de synthèse: " ++ e, none)
  | Except.ok synthesis =>
      (finalResult ++ "\nConclusion consolidée (via modèle de synthèse):\n" ++ synthesis, none)

/-- `RunSociety`: create the pool, fan out, then collect, mirroring the Go
return pairs (`"", err` on failure, `result, nil` on success). -/
def RunSociety (config : Config) (models : List AIModel) (order : List Nat) :
    String × Option SAError :=
  let society := createSociety config models
  match society.run order with
  | some err => ("", some err)
  | none => (collectResults (runResults society.agents order), none)

/-- `RunSocietyWithSynthesis`: fan out, then collect with the dedicated
synthesis capability. -/
def RunSocietyWithSynthesis (config : Config) (models : List AIModel)
    (synthModel : AIModel) (order : List Nat) : String × Option SAError :=
  let society := createSociety config models
  match society.run order with
  | some err => ("", some err)
  | none =>
      match collectResultsWithSynthesisModel (runResults society.agents order) synthModel with
      | (_, some err) => ("", some err)
      | (result, none) => (result, none)

/-- `Society`: public standard-mode entry point with its validation. -/
def Society (prompt : String) (agentCount : Int) (models : List AIModel)
    (multiModel : Bool) (order : List Nat) : String × Option SAError :=
  if agentCount ≤ 0 then ("", some SAError.invalidAgentCount)
  else if models.length = 0 then ("", some SAError.noModelsSpecified)
  else
    RunSociety
      { prompt := prompt, agentCount := agentCount, multiModel := multiModel,
        collaborative := false } models order

/-- `SocietyWithSynthesis`: public synthesis-mode entry point with its
validation; the Go `synthModel AIModel` argument is nilable, hence `Option`. -/
def SocietyWithSynthesis (prompt : String) (agentCount : Int) (models : List AIModel)
    (multiModel : Bool) (synthModel : Option AIModel) (order : List Nat) :
    String × Option SAError :=
  if agentCount ≤ 0 then ("", some SAError.invalidAgentCount)
  else if models.length = 0 then ("", some SAError.noModelsSpecified)
  else
    match synthModel with
    | none => ("", some SAError.nilSynthesisModel)
    | some sm =>
        RunSocietyWithSynthesis
          { prompt := prompt, agentCount := agentCount, multiModel := multiModel,
            collaborative := false } models sm order

/-- `performInitialAnalysis`: phase 1, run by the pool's first agent only;
on success the response is stored as the context's initial analysis and
copied into every agent's shared-analysis slot. -/
def performInitialAnalysis (s : SocietyGroup) : Except SAError SocietyGroup :=
  match s.agents with
  | [] => Except.error SAError.noAgentsForAnalysis
  | primaryAgent :: _ =>
    let analysisPrompt :=
      "Analyse profondément cette demande pour en comprendre l\x27essence, les attentes implicites et explicites, " ++
      "et le niveau de détail approprié pour y répondre de manière optimale: " ++ primaryAgent.prompt
    match primaryAgent.model.process analysisPrompt with
    | Except.error e => Except.error (SAError.modelFailure e)
    | Except.ok initialAnalysis =>
        Except.ok { s with
          context := { s.context with initialAnalysis := initialAnalysis }
          agents := s.agents.map fun a => { a with sharedAnalysis := initialAnalysis } }

/-- The per-agent exploration prompt of `exploreDimensions` (the
`fmt.Sprintf` template applied to the agent's shared analysis, assigned
dimension and original prompt). -/
def explorationPrompt (a : Agent) : String :=
  "En te basant sur cette analyse initiale:\n\n" ++ a.sharedAnalysis ++ "\n\n" ++
  "Explore en profondeur cette dimension spécifique: " ++ a.dimensionToExplore ++ "\n\n" ++
  "Pour la question originale: " ++ a.prompt ++ "\n\n" ++
  "Analyse cette dimension de manière détaillée et approfondie, en tenant compte des autres aspects " ++
  "mais en te concentrant particulièrement sur cette dimension. " ++
  "Pense étape par étape et développe une analyse nuancée et complète."

/-- One exploration-phase capability call of an agent. -/
def exploreOutcome (a : Agent) : Except String String :=
  a.model.process (explorationPrompt a)

/-- Contents of the `errs` channel of the exploration fan-out, in completion
order. -/
def exploreErrs (agents : List Agent) (order : List Nat) : List String :=
  order.filterMap fun i =>
    match exploreOutcome (agents.getD i default) with
    | Except.error e => some e
    | Except.ok _ => none

/-- Contents of the shared `Results` channel after the exploration fan-out,
in completion order; `insights[i] = <-s.Results` drains exactly these, so
slot `i` holds the `i`-th value received. -/
def exploreResults (agents : List Agent) (order : List Nat) : List String :=
  order.filterMap fun i => (exploreOutcome (agents.getD i default)).toOption

/-- `exploreDimensions`: phase 2 fan-out; fail on the first received error,
otherwise store the drained insights in the collaborative context. -/
def exploreDimensions (s : SocietyGroup) (order : List Nat) : Except SAError SocietyGroup :=
  match exploreErrs s.agents order with
  | e :: _ => Except.error (SAError.modelFailure e)
  | [] =>
      Except.ok { s with
        context := { s.context with sharedInsights := exploreResults s.agents order } }

/-- The integration prompt of `integrateAnalyses`: the initial analysis
followed by every `(s.Agents[i].DimensionToExplore, insight i)` pair. -/
def integrationPrompt (s : SocietyGroup) : String :=
  "Intègre organiquement ces différentes analyses en une compréhension cohérente et unifiée:\n\n" ++
  "Compréhension initiale de la demande:\n" ++ s.context.initialAnalysis ++ "\n\n" ++
  String.join (s.context.sharedInsights.enum.map fun p =>
    "Dimension: " ++ (s.agents.getD p.1 default).dimensionToExplore ++ "\n" ++ p.2 ++ "\n\n") ++
  "Ta tâche est de synthétiser ces analyses en une compréhension intégrée qui combine " ++
  "organiquement toutes les dimensions, en évitant de simplement juxtaposer les informations. " ++
  "Identifie les connexions, les patterns et les idées transversales. " ++
  "Forme une analyse unifiée qui représente une réflexion collaborative approfondie."

/-- `integrateAnalyses`: phase 3, run by the pool's first agent; on success
the integrated analysis overwrites every agent's shared-analysis slot. -/
def integrateAnalyses (s : SocietyGroup) : Except SAError SocietyGroup :=
  if s.agents.length = 0 ∨ s.context.sharedInsights.length = 0 then
    Except.error SAError.nothingToIntegrate
  else
    let primaryAgent := s.agents.getD 0 default
    match primaryAgent.model.process (integrationPrompt s) with
    | Except.error e => Except.error (SAError.modelFailure e)
    | Except.ok integratedAnalysis =>
        Except.ok { s with
          agents := s.agents.map fun a => { a with sharedAnalysis := integratedAnalysis } }

/-- The final-response prompt of `generateFinalResponse`, built from the
primary agent's shared analysis and original prompt. -/
def responsePrompt (a : Agent) : String :=
  "En t\x27appuyant sur cette analyse intégrée et approfondie:\n\n" ++ a.sharedAnalysis ++ "\n\n" ++
  "Formule une réponse directe, claire et complète à la demande originale: " ++ a.prompt ++ "\n\n" ++
  "La réponse doit être parfaitement adaptée aux besoins implicites et explicites de l\x27utilisateur, " ++
  "en intégrant harmonieusement les perspectives des différentes dimensions analysées. " ++
  "La réponse doit être cohérente, structurée et offrir un maximum de valeur à l\x27utilisateur. " ++
  "N\x27inclus pas de mentions du processus analytique, concentre-toi uniquement sur la réponse à la demande."

/-- `generateFinalResponse`: phase 4, run by the pool's first agent; its
response is the pipeline's return value. -/
def generateFinalResponse (s : SocietyGroup) : Except SAError String :=
  match s.agents with
  | [] => Except.error SAError.noAgentsForResponse
  | primaryAgent :: _ =>
    match primaryAgent.model.process (responsePrompt primaryAgent) with
    | Except.error e => Except.error (SAError.modelFailure e)
    | Except.ok finalResponse => Except.ok finalResponse

/-- `RunSocietyCollaborative`: the four-phase pipeline; any phase's failure
is returned immediately with an empty result string. -/
def RunSocietyCollaborative (config : Config) (models : List AIModel) (order : List Nat) :
    String × Option SAError :=
  let society := createCollaborativeSociety config models
  match performInitialAnalysis society with
  | Except.error e => ("", some e)
  | Except.ok s1 =>
    match exploreDimensions s1 order with
    | Except.error e => ("", some e)
    | Except.ok s2 =>
      match integrateAnalyses s2 with
      | Except.error e => ("", some e)
      | Except.ok s3 =>
        match generateFinalResponse s3 with
        | Except.error e => ("", some e)
        | Except.ok result => (result, none)

/-- `SocietyCollaborative`: public collaborative-mode entry point. -/
def SocietyCollaborative (prompt : String) (agentCount : Int) (models : List AIModel)
    (multiModel : Bool) (order : List Nat) : String × Option SAError :=
  if agentCount ≤ 0 then ("", some SAError.invalidAgentCount)
  else if models.length = 0 then ("", some SAError.noModelsSpecified)
  else
    RunSocietyCollaborative
      { prompt := prompt, agentCount := agentCount, multiModel := multiModel,
        collaborative := true } models order

/-!
Call-trace observers.  Each function below lists, in execution order, the
names of the models whose `Process` operation a piece of the engine invokes
on a given input; they follow the source's control flow call site by call
site (a fan-out invokes every launched agent's model exactly once; each
single-agent phase invokes the primary agent's model once, guarded by the
same emptiness checks as the phase itself; a later phase runs only when the
earlier phases succeeded).
-/

/-- Model names invoked by one fan-out (`run` or `exploreDimensions`), in
completion order. -/
def fanOutCalls (agents : List Agent) (order : List Nat) : List String :=
  order.map fun i => (agents.getD i default).model.name

/-- Model names invoked by `performInitialAnalysis`. -/
def initialAnalysisCalls (s : SocietyGroup) : List String :=
  match s.agents with
  | [] => []
  | primaryAgent :: _ => [primaryAgent.model.name]

/-- Model names invoked by `integrateAnalyses`. -/
def integrateCalls (s : SocietyGroup) : List String :=
  if s.agents.length = 0 ∨ s.context.sharedInsights.length = 0 then []
  else [(s.agents.getD 0 default).model.name]

/-- Model names invoked by `generateFinalResponse`. -/
def finalResponseCalls (s : SocietyGroup) : List String :=
  match s.agents with
  | [] => []
  | primaryAgent :: _ => [primaryAgent.model.name]

/-- Model names invoked by `RunSocietyCollaborative`, phase by phase. -/
def RunSocietyCollaborativeCalls (config : Config) (models : List AIModel)
    (order : List Nat) : List String :=
  let society := createCollaborativeSociety config models
  initialAnalysisCalls society ++
    match performInitialAnalysis society with
    | Except.error _ => []
    | Except.ok s1 =>
      fanOutCalls s1.agents order ++
        match exploreDimensions s1 order with
        | Except.error _ => []
        | Except.ok s2 =>
          integrateCalls s2 ++
            match integrateAnalyses s2 with
            | Except.error _ => []
            | Except.ok s3 => finalResponseCalls s3

/-- Model names invoked by `Society` (validation failures invoke none). -/
def SocietyCalls (prompt : String) (agentCount : Int) (models : List AIModel)
    (multiModel : Bool) (order : List Nat) : List String :=
  if agentCount ≤ 0 then []
  else if models.length = 0 then []
  else
    fanOutCalls
      (createSociety
        { prompt := prompt, agentCount := agentCount, multiModel := multiModel,
          collaborative := false } models).agents order

/-- Model names invoked by `SocietyWithSynthesis` (validation failures
invoke none; the synthesis model is invoked once after a successful
fan-out). -/
def SocietyWithSynthesisCalls (prompt : String) (agentCount : Int)
    (models : List AIModel) (multiModel : Bool) (synthModel : Option AIModel)
    (order : List Nat) : List String :=
  if agentCount ≤ 0 then []
  else if models.length = 0 then []
  else
    match synthModel with
    | none => []
    | some sm =>
        let society := createSociety
          { prompt := prompt, agentCount := agentCount, multiModel := multiModel,
            collaborative := false } models
        fanOutCalls society.agents order ++
          match society.run order with
          | some _ => []
          | none => [sm.name]

/-- Model names invoked by `SocietyCollaborative` (validation failures
invoke none). -/
def SocietyCollaborativeCalls (prompt : String) (agentCount : Int)
    (models : List AIModel) (multiModel : Bool) (order : List Nat) : List String :=
  if agentCount ≤ 0 then []
  else if models.length = 0 then []
  else
    RunSocietyCollaborativeCalls
      { prompt := prompt, agentCount := agentCount, multiModel := multiModel,
        collaborative := true } models order

/-- Observer for the exploration phase of the collaborative pipeline: the
insight list stored in the context after phases 1 and 2 succeed on the
given completion order. -/
def insightsAfterExploration (config : Config) (models : List AIModel)
    (order : List Nat) : Option (List String) :=
  match performInitialAnalysis (createCollaborativeSociety config models) with
  | Except.error _ => none
  | Except.ok s1 =>
    match exploreDimensions s1 order with
    | Except.error _ => none
    | Except.ok s2 => some s2.context.sharedInsights

/-- Observer: the exploration-phase response produced by agent `i` itself
(after phase 1 succeeds). -/
def explorationResponse (config : Config) (models : List AIModel) (i : Nat) :
    Option String :=
  match performInitialAnalysis (createCollaborativeSociety config models) with
  | Except.error _ => none
  | Except.ok s1 => (exploreOutcome (s1.agents.getD i default)).toOption

/-- A concrete always-succeeding capability used to instantiate theorems on
closed inputs: it echoes its prompt. -/
def echoModel : AIModel :=
  { name := "echo", process := fun p => Except.ok p }

/-- A concrete always-failing capability used to instantiate theorems on
closed inputs. -/
def failModel : AIModel :=
  { name := "fail", process := fun _ => Except.error "boom" }

/-!
Helper lemmas, shared by the claim theorems below.
-/

theorem filterMap_nil_of {α β : Type} {l : List α} {g : α → Option β}
    (H : ∀ i ∈ l, g i = none) : l.filterMap g = [] :=
  List.filterMap_eq_nil_iff.mpr H

theorem filterMap_eq_map_of {α β : Type} {l : List α} {g : α → Option β} {h : α → β}
    (H : ∀ i ∈ l, g i = some (h i)) : l.filterMap g = l.map h := by
  induction l with
  | nil => rfl
  | cons a t ih =>
      rw [List.filterMap_cons, List.map_cons, H a (List.mem_cons_self a t),
        ih fun i hi => H i (List.mem_cons_of_mem a hi)]

theorem filterMap_single_of {α β : Type} {l : List α} {g : α → Option β} {j : α} {m : β}
    (hnd : l.Nodup) (hj : j ∈ l) (hgj : g j = some m)
    (hother : ∀ i ∈ l, i ≠ j → g i = none) : l.filterMap g = [m] := by
  induction l with
  | nil => cases hj
  | cons a t ih =>
      rcases List.mem_cons.mp hj with rfl | hjt
      · have ht : t.filterMap g = [] := by
          apply filterMap_nil_of
          intro i hi
          exact hother i (List.mem_cons_of_mem _ hi)
            fun hic => (List.nodup_cons.mp hnd).1 (hic ▸ hi)
        rw [List.filterMap_cons, hgj, ht]
      · have ha : g a = none := by
          apply hother a (List.mem_cons_self a t)
          intro hac
          exact (List.nodup_cons.mp hnd).1 (hac ▸ hjt)
        rw [List.filterMap_cons, ha]
        exact ih (List.nodup_cons.mp hnd).2 hjt
          fun i hi hij => hother i (List.mem_cons_of_mem a hi) hij

theorem getD_range_map {α : Type} (g : Nat → α) (d : α) {i n : Nat} (hi : i < n) :
    ((List.range n).map g).getD i d = g i := by
  simp [List.getD, List.getElem?_map, List.getElem?_range, hi]

theorem mem_lt_of_perm_range {order : List Nat} {n : Nat}
    (horder : order.Perm (List.range n)) : ∀ i ∈ order, i < n := by
  intro i hi
  exact List.mem_range.mp (horder.mem_iff.mp hi)

theorem getD_mem_of_lt {α : Type} {l : List α} {k : Nat} (d : α) (hk : k < l.length) :
    l.getD k d ∈ l := by
  rw [List.getD_eq_getElem l d hk]
  exact List.getElem_mem hk

theorem run_ok_of {s : SocietyGroup} {order : List Nat} {resp : Nat → String}
    (hok : ∀ i ∈ order, (s.agents.getD i default).processCall = Except.ok (resp i)) :
    s.run order = none ∧ runResults s.agents order = order.map resp := by
  have h1 : runErrs s.agents order = [] := by
    apply filterMap_nil_of
    intro i hi
    rw [hok i hi]
  have h2 : runResults s.agents order = order.map resp := by
    apply filterMap_eq_map_of
    intro i hi
    rw [hok i hi]
    rfl
  exact ⟨by rw [SocietyGroup.run, h1], h2⟩

theorem run_err_of {s : SocietyGroup} {order : List Nat} {j : Nat} {emsg : String}
    (hnd : order.Nodup) (hj : j ∈ order)
    (hfail : (s.agents.getD j default).processCall = Except.error emsg)
    (hok : ∀ i ∈ order, i ≠ j →
      ∃ r, (s.agents.getD i default).processCall = Except.ok r) :
    s.run order = some (SAError.modelFailure emsg) := by
  have h1 : runErrs s.agents order = [emsg] := by
    apply filterMap_single_of hnd hj (by rw [hfail])
    intro i hi hij
    obtain ⟨r, hr⟩ := hok i hi hij
    rw [hr]
  rw [SocietyGroup.run, h1]

theorem exploreDimensions_ok_of {s : SocietyGroup} {order : List Nat} {resp : Nat → String}
    (hok : ∀ i ∈ order, exploreOutcome (s.agents.getD i default) = Except.ok (resp i)) :
    exploreDimensions s order =
      Except.ok { s with context := { s.context with sharedInsights := order.map resp } } := by
  have h1 : exploreErrs s.agents order = [] := by
    apply filterMap_nil_of
    intro i hi
    rw [hok i hi]
  have h2 : exploreResults s.agents order = order.map resp := by
    apply filterMap_eq_map_of
    intro i hi
    rw [hok i hi]
    rfl
  rw [exploreDimensions, h1, h2]

theorem exploreDimensions_err_of {s : SocietyGroup} {order : List Nat} {j : Nat} {emsg : String}
    (hnd : order.Nodup) (hj : j ∈ order)
    (hfail : exploreOutcome (s.agents.getD j default) = Except.error emsg)
    (hok : ∀ i ∈ order, i ≠ j →
      ∃ r, exploreOutcome (s.agents.getD i default) = Except.ok r) :
    exploreDimensions s order = Except.error (SAError.modelFailure emsg) := by
  have h1 : exploreErrs s.agents order = [emsg] := by
    apply filterMap_single_of hnd hj (by rw [hfail])
    intro i hi hij
    obtain ⟨r, hr⟩ := hok i hi hij
    rw [hr]
  rw [exploreDimensions, h1]

/-!
Claim theorems.
-/

/-- C3: for every requested agent count and every capability list of length
at least one, if the multi-capability flag is enabled and more than one
capability is available then agent `i` is bound to `models[i mod M]`, and
otherwise every agent is bound to `models[0]`, in both standard and
collaborative pool construction. -/
theorem capability_round_robin (config : Config) (models : List AIModel) (i : Nat)
    (hi : i < config.agentCount.toNat) (_hm : 0 < models.length) :
    (config.multiModel = true → models.length > 1 →
      ((createSociety config models).agents.getD i default).model
          = models.getD (i % models.length) default ∧
      ((createCollaborativeSociety config models).agents.getD i default).model
          = models.getD (i % models.length) default) ∧
    (config.multiModel = false ∨ models.length = 1 →
      ((createSociety config models).agents.getD i default).model
          = models.getD 0 default ∧
      ((createCollaborativeSociety config models).agents.getD i default).model
          = models.getD 0 default) := by
  have hstd : ((createSociety config models).agents.getD i default).model
      = modelForAgent config.multiModel models default i := by
    simp only [createSociety]
    rw [getD_range_map _ _ hi]
  have hcol : ((createCollaborativeSociety config models).agents.getD i default).model
      = modelForAgent config.multiModel models default i := by
    simp only [createCollaborativeSociety]
    rw [getD_range_map _ _ hi]
  constructor
  · intro hmm hlen
    rw [hstd, hcol, modelForAgent, if_pos ⟨hmm, hlen⟩]
    exact ⟨rfl, rfl⟩
  · intro h
    have hcond : ¬(config.multiModel = true ∧ models.length > 1) := by
      rcases h with h | h
      · intro hc
        rw [h] at hc
        exact Bool.false_ne_true hc.1
      · intro hc
        omega
    rw [hstd, hcol, modelForAgent, if_neg hcond]
    exact ⟨rfl, rfl⟩

/-- Witness for C3 at a concrete input: three agents over two capabilities
with multi-capability enabled; agent 2 is bound to `models[2 mod 2] = models[0]`. -/
theorem capability_round_robin_witness :
    (2 < ((⟨"p", 3, true, false⟩ : Config)).agentCount.toNat
      ∧ 0 < [echoModel, failModel].length) ∧
    ((createSociety ⟨"p", 3, true, false⟩
        [echoModel, failModel]).agents.getD 2 default).model
      = [echoModel, failModel].getD (2 % [echoModel, failModel].length) default :=
  ⟨⟨by decide, by decide⟩,
    ((capability_round_robin ⟨"p", 3, true, false⟩
        [echoModel, failModel] 2 (by decide) (by decide)).1 rfl (by decide)).1⟩

/-- C8: in standard and synthesis modes (both pools are built by
`createSociety`), agent `i` of the pool is assigned the prompt
`perspectives[i mod 5] ++ originalPrompt`, where `perspectives` is the fixed
ordered list of five distinct framing prefixes. -/
theorem prompt_framing (config : Config) (models : List AIModel) (i : Nat)
    (hi : i < config.agentCount.toNat) :
    ((createSociety config models).agents.getD i default).prompt
        = perspectives.getD (i % 5) "" ++ config.prompt ∧
    perspectives.length = 5 ∧ perspectives.Nodup := by
  refine ⟨?_, rfl, by decide⟩
  simp only [createSociety]
  rw [getD_range_map _ _ hi]
  rfl

/-- Witness for C8: agent 6 of a 7-agent pool gets prefix `6 mod 5 = 1`. -/
theorem prompt_framing_witness :
    (6 < ((⟨"Q", 7, false, false⟩ : Config)).agentCount.toNat) ∧
    ((createSociety ⟨"Q", 7, false, false⟩ [echoModel]).agents.getD 6 default).prompt
        = perspectives.getD (6 % 5) "" ++ "Q" :=
  ⟨by decide, (prompt_framing ⟨"Q", 7, false, false⟩ [echoModel] 6 (by decide)).1⟩

/-- C9 counterexample: the claim asserts a non-null bound capability for
EVERY capability list the caller may supply, but a Go caller may place a
`nil` interface value in the slice (`[]AIModel{nil}` passes the
`len(models) == 0` validation).  The construction loop's binding step then
stores that nil reference: with requested count 1 the bound-reference list
is `[none]`, i.e. agent 0's capability reference is nil at construction. -/
theorem nil_capability_binding_counterexample :
    createSocietyModelRefs ⟨"P", 1, true, false⟩ [(none : Option AIModel)]
      = [none] := rfl

/-- C9 (amended): for every pool successfully constructed from a requested
count N > 0 and a non-empty capability list, the pool contains exactly N
agents with identities 0..N-1, and every agent's bound capability is an
element of the supplied list — hence non-null whenever the caller supplies
no nil reference (the nil-freedom proviso is forced by the counterexample). -/
theorem pool_construction_invariants (config : Config) (models : List AIModel)
    (hN : 0 < config.agentCount) (hm : models ≠ []) :
    (createSociety config models).agents.length = config.agentCount.toNat ∧
    (createCollaborativeSociety config models).agents.length = config.agentCount.toNat ∧
    0 < (createSociety config models).agents.length ∧
    (∀ i, i < config.agentCount.toNat →
      ((createSociety config models).agents.getD i default).id = i) ∧
    (∀ i, i < config.agentCount.toNat →
      ((createSociety config models).agents.getD i default).model ∈ models) ∧
    (∀ optModels : List (Option AIModel), optModels ≠ [] →
      (∀ x ∈ optModels, x ≠ none) →
      ∀ i : Nat, modelForAgent config.multiModel optModels none i ≠ none) := by
  have hmlen : 0 < models.length := List.length_pos.mpr hm
  have hNn : 0 < config.agentCount.toNat := by omega
  have hlen1 : (createSociety config models).agents.length = config.agentCount.toNat := by
    simp [createSociety]
  have hlen2 : (createCollaborativeSociety config models).agents.length
      = config.agentCount.toNat := by
    simp [createCollaborativeSociety]
  refine ⟨hlen1, hlen2, by omega, ?_, ?_, ?_⟩
  · intro i hi
    simp only [createSociety]
    rw [getD_range_map _ _ hi]
  · intro i hi
    simp only [createSociety]
    rw [getD_range_map _ _ hi]
    show modelForAgent config.multiModel models default i ∈ models
    rw [modelForAgent]
    split
    · exact getD_mem_of_lt default (Nat.mod_lt i hmlen)
    · exact getD_mem_of_lt default hmlen
  · intro optModels hne hnonnil i
    have holen : 0 < optModels.length := List.length_pos.mpr hne
    rw [modelForAgent]
    split
    · exact hnonnil _ (getD_mem_of_lt none (Nat.mod_lt i holen))
    · exact hnonnil _ (getD_mem_of_lt none holen)

/-- Witness for C9 (amended) at a concrete input: a 2-agent pool over one
capability. -/
theorem pool_construction_invariants_witness :
    ((0 : Int) < ((⟨"P", 2, false, false⟩ : Config)).agentCount
        ∧ [echoModel] ≠ []) ∧
    (createSociety ⟨"P", 2, false, false⟩ [echoModel]).agents.length
        = ((⟨"P", 2, false, false⟩ : Config)).agentCount.toNat :=
  ⟨⟨by decide, by simp⟩,
    (pool_construction_invariants ⟨"P", 2, false, false⟩ [echoModel]
      (by decide) (by simp)).1⟩

/-- C10: whenever any of the three entry points or their Run* counterparts
returns a non-nil error, the accompanying result text is exactly the empty
string — every error-return site in the source pairs the error with `""`. -/
theorem error_return_has_empty_result (prompt : String) (agentCount : Int)
    (models : List AIModel) (multiModel : Bool) (synthModel : Option AIModel)
    (sm : AIModel) (config : Config) (order : List Nat) :
    ((RunSociety config models order).2.isSome →
      (RunSociety config models order).1 = "") ∧
    ((RunSocietyWithSynthesis config models sm order).2.isSome →
      (RunSocietyWithSynthesis config models sm order).1 = "") ∧
    ((RunSocietyCollaborative config models order).2.isSome →
      (RunSocietyCollaborative config models order).1 = "") ∧
    ((Society prompt agentCount models multiModel order).2.isSome →
      (Society prompt agentCount models multiModel order).1 = "") ∧
    ((SocietyWithSynthesis prompt agentCount models multiModel synthModel order).2.isSome →
      (SocietyWithSynthesis prompt agentCount models multiModel synthModel order).1 = "") ∧
    ((SocietyCollaborative prompt agentCount models multiModel order).2.isSome →
      (SocietyCollaborative prompt agentCount models multiModel order).1 = "") := by
  have hdisj : ∀ p : String × Option SAError,
      (p.1 = "" ∨ p.2 = none) → p.2.isSome → p.1 = "" := by
    rintro p (h | h) hs
    · exact h
    · rw [h] at hs
      simp at hs
  have hRS : ∀ (c : Config) (ms : List AIModel) (o : List Nat),
      (RunSociety c ms o).1 = "" ∨ (RunSociety c ms o).2 = none := by
    intro c ms o
    unfold RunSociety
    dsimp only
    split
    · exact Or.inl rfl
    · exact Or.inr rfl
  have hRSW : ∀ (c : Config) (ms : List AIModel) (m : AIModel) (o : List Nat),
      (RunSocietyWithSynthesis c ms m o).1 = ""
        ∨ (RunSocietyWithSynthesis c ms m o).2 = none := by
    intro c ms m o
    unfold RunSocietyWithSynthesis
    dsimp only
    split
    · exact Or.inl rfl
    · split
      · exact Or.inl rfl
      · exact Or.inr rfl
  have hRSC : ∀ (c : Config) (ms : List AIModel) (o : List Nat),
      (RunSocietyCollaborative c ms o).1 = ""
        ∨ (RunSocietyCollaborative c ms o).2 = none := by
    intro c ms o
    unfold RunSocietyCollaborative
    dsimp only
    split
    · exact Or.inl rfl
    · split
      · exact Or.inl rfl
      · split
        · exact Or.inl rfl
        · split
          · exact Or.inl rfl
          · exact Or.inr rfl
  refine ⟨hdisj _ (hRS config models order), hdisj _ (hRSW config models sm order),
    hdisj _ (hRSC config models order), hdisj _ ?_, hdisj _ ?_, hdisj _ ?_⟩
  · unfold Society
    split
    · exact Or.inl rfl
    · split
      · exact Or.inl rfl
      · exact hRS _ _ _
  · unfold SocietyWithSynthesis
    split
    · exact Or.inl rfl
    · split
      · exact Or.inl rfl
      · split
        · exact Or.inl rfl
        · exact hRSW _ _ _ _
  · unfold SocietyCollaborative
    split
    · exact Or.inl rfl
    · split
      · exact Or.inl rfl
      · exact hRSC _ _ _

/-- Witness for C10 at a concrete erroring input: a standard run whose only
agent fails returns a non-nil error and the empty result string. -/
theorem error_return_has_empty_result_witness :
    (Society "p" 1 [failModel] false [0]).2.isSome ∧
    (Society "p" 1 [failModel] false [0]).1 = "" :=
  ⟨by decide,
    (error_return_has_empty_result "p" 1 [failModel] false none failModel
      ⟨"p", 1, false, false⟩ [0]).2.2.2.1 (by decide)⟩

/-- C7: an agent count of at most zero makes all three entry points fail
with the invalid-agent-count error; with a positive count, an empty
capability list makes them fail with the no-capabilities error; with a
positive count and a non-empty list, a nil synthesis capability makes
`SocietyWithSynthesis` fail with the missing-synthesis-capability error.
In every case the corresponding call trace is empty: the error is returned
before any capability's `Process` operation is invoked. -/
theorem validation_rejects_before_dispatch (prompt : String) (agentCount : Int)
    (models : List AIModel) (multiModel : Bool) (synthModel : Option AIModel)
    (order : List Nat) :
    (agentCount ≤ 0 →
      Society prompt agentCount models multiModel order
          = ("", some SAError.invalidAgentCount) ∧
      SocietyWithSynthesis prompt agentCount models multiModel synthModel order
          = ("", some SAError.invalidAgentCount) ∧
      SocietyCollaborative prompt agentCount models multiModel order
          = ("", some SAError.invalidAgentCount) ∧
      SocietyCalls prompt agentCount models multiModel order = [] ∧
      SocietyWithSynthesisCalls prompt agentCount models multiModel synthModel order = [] ∧
      SocietyCollaborativeCalls prompt agentCount models multiModel order = []) ∧
    (0 < agentCount → models = [] →
      Society prompt agentCount models multiModel order
          = ("", some SAError.noModelsSpecified) ∧
      SocietyWithSynthesis prompt agentCount models multiModel synthModel order
          = ("", some SAError.noModelsSpecified) ∧
      SocietyCollaborative prompt agentCount models multiModel order
          = ("", some SAError.noModelsSpecified) ∧
      SocietyCalls prompt agentCount models multiModel order = [] ∧
      SocietyWithSynthesisCalls prompt agentCount models multiModel synthModel order = [] ∧
      SocietyCollaborativeCalls prompt agentCount models multiModel order = []) ∧
    (0 < agentCount → models ≠ [] →
      SocietyWithSynthesis prompt agentCount models multiModel none order
          = ("", some SAError.nilSynthesisModel) ∧
      SocietyWithSynthesisCalls prompt agentCount models multiModel none order = []) := by
  refine ⟨?_, ?_, ?_⟩
  · intro hn
    refine ⟨?_, ?_, ?_, ?_, ?_, ?_⟩ <;>
      simp [Society, SocietyWithSynthesis, SocietyCollaborative, SocietyCalls,
        SocietyWithSynthesisCalls, SocietyCollaborativeCalls, hn]
  · intro hn hm
    have hn' : ¬agentCount ≤ 0 := by omega
    refine ⟨?_, ?_, ?_, ?_, ?_, ?_⟩ <;>
      simp [Society, SocietyWithSynthesis, SocietyCollaborative, SocietyCalls,
        SocietyWithSynthesisCalls, SocietyCollaborativeCalls, hn', hm]
  · intro hn hm
    have hn' : ¬agentCount ≤ 0 := by omega
    have hm' : models.length ≠ 0 := by
      simpa using fun h => hm (List.length_eq_zero.mp h)
    refine ⟨?_, ?_⟩ <;>
      simp [SocietyWithSynthesis, SocietyWithSynthesisCalls, hn', hm']

/-- Witness for C7: sampling each validation branch on concrete inputs. -/
theorem validation_rejects_before_dispatch_witness :
    (Society "p" 0 [echoModel] true []
        = ("", some SAError.invalidAgentCount)) ∧
    (Society "p" 2 [] true [] = ("", some SAError.noModelsSpecified)) ∧
    (SocietyWithSynthesis "p" 2 [echoModel] true none []
        = ("", some SAError.nilSynthesisModel)) ∧
    SocietyWithSynthesisCalls "p" 2 [echoModel] true none [] = [] :=
  ⟨((validation_rejects_before_dispatch "p" 0 [echoModel] true none []).1
      (by decide)).1,
    ((validation_rejects_before_dispatch "p" 2 [] true none []).2.1
      (by decide) rfl).1,
    ((validation_rejects_before_dispatch "p" 2 [echoModel] true none []).2.2
      (by decide) (by simp)).1,
    ((validation_rejects_before_dispatch "p" 2 [echoModel] true none []).2.2
      (by decide) (by simp)).2⟩

/-- C5: for every pool of N agents whose capability calls each succeed with
a distinct fixed string, and for every completion order, `RunSociety`
produces the report rendered from the drained list `order.map resp`; its
labelled entries carry labels 1..N assigned in arrival order (entry `i`
carries label `i+1`, so the label positions are exactly `range N`), and the
drained texts are a permutation of the N agent responses, each of which
occurs exactly once. -/
theorem standard_report_complete_and_labelled (config : Config) (models : List AIModel)
    (order : List Nat) (resp : Nat → String) (N : Nat)
    (_hN : (createSociety config models).agents.length = N)
    (horder : order.Perm (List.range N))
    (hok : ∀ i, i < N →
      ((createSociety config models).agents.getD i default).processCall
        = Except.ok (resp i))
    (hinj : ∀ i, i < N → ∀ j, j < N → resp i = resp j → i = j) :
    RunSociety config models order = (collectResults (order.map resp), none) ∧
    (order.map resp).enum.map Prod.fst = List.range N ∧
    (order.map resp).Perm ((List.range N).map resp) ∧
    (∀ i, i < N → (order.map resp).count (resp i) = 1) := by
  have hmem : ∀ i ∈ order, i < N := mem_lt_of_perm_range horder
  have hok' : ∀ i ∈ order,
      ((createSociety config models).agents.getD i default).processCall
        = Except.ok (resp i) :=
    fun i hi => hok i (hmem i hi)
  obtain ⟨hrun, hres⟩ := run_ok_of hok'
  have hperm : (order.map resp).Perm ((List.range N).map resp) := horder.map resp
  have hnodup : ((List.range N).map resp).Nodup :=
    List.Nodup.map_on
      (fun x hx y hy hxy =>
        hinj x (List.mem_range.mp hx) y (List.mem_range.mp hy) hxy)
      (List.nodup_range N)
  refine ⟨?_, ?_, hperm, ?_⟩
  · unfold RunSociety
    dsimp only
    rw [hrun, hres]
  · rw [List.enum_map_fst, List.length_map, horder.length_eq, List.length_range]
  · intro i hi
    rw [hperm.count_eq]
    exact List.count_eq_one_of_mem hnodup
      (List.mem_map_of_mem resp (List.mem_range.mpr hi))

/-- Witness for C5: two echoing agents completing in reversed order; the
report is rendered from the arrival-ordered drained list and each response
occurs exactly once. -/
theorem standard_report_complete_and_labelled_witness :
    ((createSociety ⟨"P", 2, false, false⟩ [echoModel]).agents.length = 2
      ∧ [1, 0].Perm (List.range 2)
      ∧ (∀ i, i < 2 →
          ((createSociety ⟨"P", 2, false, false⟩ [echoModel]).agents.getD i default).processCall
            = Except.ok (generatePromptForAgent "P" i))) ∧
    RunSociety ⟨"P", 2, false, false⟩ [echoModel] [1, 0]
        = (collectResults ([1, 0].map (generatePromptForAgent "P")), none) ∧
    (∀ i, i < 2 →
      ([1, 0].map (generatePromptForAgent "P")).count (generatePromptForAgent "P" i) = 1) :=
  ⟨⟨by decide, by decide, by intro i hi; interval_cases i <;> rfl⟩,
    (standard_report_complete_and_labelled ⟨"P", 2, false, false⟩ [echoModel] [1, 0]
        (generatePromptForAgent "P") 2 (by decide) (by decide)
        (by intro i hi; interval_cases i <;> rfl) (by decide)).1,
    (standard_report_complete_and_labelled ⟨"P", 2, false, false⟩ [echoModel] [1, 0]
        (generatePromptForAgent "P") 2 (by decide) (by decide)
        (by intro i hi; interval_cases i <;> rfl) (by decide)).2.2.2⟩

/-- C2: if one agent's capability call fails during fan-out (and the other
agents' calls succeed), then `RunSociety` returns exactly that failure with
no partial report, and `RunSocietyCollaborative` — whose exploration
fan-out fails the same way after a successful initial analysis — returns
exactly that exploration failure with no partial report. -/
theorem single_failure_aborts_run (config : Config) (models : List AIModel)
    (order : List Nat) (j : Nat) (emsg ecmsg : String) (s1 : SocietyGroup)
    (horderS : order.Perm (List.range (createSociety config models).agents.length))
    (hjS : j ∈ order)
    (hfailS : ((createSociety config models).agents.getD j default).processCall
        = Except.error emsg)
    (hokS : ∀ i ∈ order, i ≠ j →
      ∃ r, ((createSociety config models).agents.getD i default).processCall
        = Except.ok r)
    (hs1 : performInitialAnalysis (createCollaborativeSociety config models)
        = Except.ok s1)
    (hfailC : exploreOutcome (s1.agents.getD j default) = Except.error ecmsg)
    (hokC : ∀ i ∈ order, i ≠ j →
      ∃ r, exploreOutcome (s1.agents.getD i default) = Except.ok r) :
    RunSociety config models order = ("", some (SAError.modelFailure emsg)) ∧
    RunSocietyCollaborative config models order
        = ("", some (SAError.modelFailure ecmsg)) := by
  have hnd : order.Nodup := horderS.symm.nodup (List.nodup_range _)
  constructor
  · have hrun : (createSociety config models).run order
        = some (SAError.modelFailure emsg) :=
      run_err_of hnd hjS hfailS hokS
    unfold RunSociety
    dsimp only
    rw [hrun]
  · have hexp : exploreDimensions s1 order
        = Except.error (SAError.modelFailure ecmsg) :=
      exploreDimensions_err_of hnd hjS hfailC hokC
    unfold RunSocietyCollaborative
    dsimp only
    rw [hs1]
    dsimp only
    rw [hexp]

/-- Witness for C2: two agents over two capabilities (multi-capability), the
second of which always fails; both modes return that failure and the empty
string. -/
theorem single_failure_aborts_run_witness :
    ((1 ∈ ([0, 1] : List Nat))
      ∧ ((createSociety ⟨"P", 2, true, false⟩ [echoModel, failModel]).agents.getD 1
          default).processCall = Except.error "boom") ∧
    RunSociety ⟨"P", 2, true, false⟩ [echoModel, failModel] [0, 1]
        = ("", some (SAError.modelFailure "boom")) ∧
    RunSocietyCollaborative ⟨"P", 2, true, false⟩ [echoModel, failModel] [0, 1]
        = ("", some (SAError.modelFailure "boom")) := by
  have hs1 : performInitialAnalysis
      (createCollaborativeSociety ⟨"P", 2, true, false⟩ [echoModel, failModel])
      = Except.ok (match performInitialAnalysis
          (createCollaborativeSociety ⟨"P", 2, true, false⟩ [echoModel, failModel]) with
        | Except.ok x => x
        | Except.error _ => default) := rfl
  have h := single_failure_aborts_run ⟨"P", 2, true, false⟩ [echoModel, failModel]
    [0, 1] 1 "boom" "boom" _ (by decide) (by decide) rfl
    (by
      intro i hi hij
      fin_cases hi
      · exact ⟨_, rfl⟩
      · exact absurd rfl hij)
    hs1 rfl
    (by
      intro i hi hij
      fin_cases hi
      · exact ⟨_, rfl⟩
      · exact absurd rfl hij)
  exact ⟨⟨by decide, rfl⟩, h.1, h.2⟩

/-- C4: when every per-agent capability call succeeds but the dedicated
synthesis capability's call fails, `RunSocietyWithSynthesis` still returns
a nil error, and its text contains the deterministic naive concatenation
`synthesizeResults` of the agent results followed by the trailing
diagnostic `"\n\nErreur de synthèse: " ++ msg`; the synthesis error is
never propagated as an error return. -/
theorem synthesis_failure_is_not_fatal (config : Config) (models : List AIModel)
    (synthModel : AIModel) (order : List Nat) (resp : Nat → String) (emsg : String)
    (hok : ∀ i ∈ order,
      ((createSociety config models).agents.getD i default).processCall
        = Except.ok (resp i))
    (hsynth : SynthesizeWithModel (order.map resp) synthModel = Except.error emsg) :
    (RunSocietyWithSynthesis config models synthModel order).2 = none ∧
    ∃ pre, (RunSocietyWithSynthesis config models synthModel order).1
        = pre ++ synthesizeResults (order.map resp)
            ++ ("\n\nErreur de synthèse: " ++ emsg) := by
  obtain ⟨hrun, hres⟩ := run_ok_of hok
  have hmain : RunSocietyWithSynthesis config models synthModel order
      = (collectResults (order.map resp)
          ++ "\nConclusion consolidée (méthode simple - erreur du modèle de synthèse):\n"
          ++ synthesizeResults (order.map resp)
          ++ "\n\nErreur de synthèse: " ++ emsg, none) := by
    unfold RunSocietyWithSynthesis
    dsimp only
    rw [hrun]
    dsimp only
    rw [hres]
    unfold collectResultsWithSynthesisModel
    dsimp only
    rw [hsynth]
    rfl
  rw [hmain]
  refine ⟨rfl,
    ⟨collectResults (order.map resp)
      ++ "\nConclusion consolidée (méthode simple - erreur du modèle de synthèse):\n", ?_⟩⟩
  dsimp only
  rw [String.append_assoc, String.append_assoc, String.append_assoc]

/-- Witness for C4: one echoing agent plus an always-failing synthesis
capability; the run returns a nil error. -/
theorem synthesis_failure_is_not_fatal_witness :
    (SynthesizeWithModel ([0].map (generatePromptForAgent "P")) failModel
        = Except.error "boom") ∧
    (RunSocietyWithSynthesis ⟨"P", 1, false, false⟩ [echoModel] failModel [0]).2 = none :=
  ⟨rfl,
    (synthesis_failure_is_not_fatal ⟨"P", 1, false, false⟩ [echoModel] failModel [0]
        (generatePromptForAgent "P") "boom"
        (by
          intro i hi
          fin_cases hi
          rfl)
        rfl).1⟩

set_option maxRecDepth 100000 in
/-- C1 counterexample: two agents sharing one echoing capability, completion
order `[1, 0]` (agent 1's exploration call completes first).  The insight
stored at index 0 of the context's insight list is agent 1's exploration
response, and it differs from agent 0's response (their assigned dimensions
differ) — so the insight list is NOT index-aligned with agent identity: the
shared Results channel is drained in completion order. -/
theorem exploration_insights_not_identity_aligned :
    (insightsAfterExploration ⟨"P", 2, false, true⟩ [echoModel] [1, 0]).map
        (fun l => l.getD 0 "")
      = explorationResponse ⟨"P", 2, false, true⟩ [echoModel] 1 ∧
    (insightsAfterExploration ⟨"P", 2, false, true⟩ [echoModel] [1, 0]).map
        (fun l => l.getD 0 "")
      ≠ explorationResponse ⟨"P", 2, false, true⟩ [echoModel] 0 := by
  exact ⟨rfl, by decide⟩

/-- C1 (amended): for every pool and every completion order in which all
exploration calls succeed, the insight stored at index `k` of the
Collaborative Context's insight list is the response produced by the agent
that completed `k`-th (`order.getD k`), i.e. the list is aligned with
completion order, not with agent identity; the two coincide only when the
completion order is the identity.  Consequently the integration phase pairs
dimension label `k` with the `k`-th completed insight. -/
theorem exploration_insights_arrival_order (s : SocietyGroup) (order : List Nat)
    (resp : Nat → String)
    (hok : ∀ i ∈ order, exploreOutcome (s.agents.getD i default) = Except.ok (resp i)) :
    exploreDimensions s order =
      Except.ok { s with context := { s.context with sharedInsights := order.map resp } } ∧
    ∀ k, k < order.length →
      (order.map resp).getD k "" = resp (order.getD k 0) := by
  refine ⟨exploreDimensions_ok_of hok, ?_⟩
  intro k hk
  rw [List.getD_eq_getElem _ _ (by simpa), List.getD_eq_getElem _ _ hk, List.getElem_map]

/-- Witness for C1 (amended): the two-agent echo scenario with completion
order `[1, 0]`; slot 0 receives the response of agent `order.getD 0 = 1`. -/
theorem exploration_insights_arrival_order_witness :
    (∀ i ∈ ([1, 0] : List Nat),
      exploreOutcome
          (((createCollaborativeSociety ⟨"P", 2, false, true⟩ [echoModel]).agents.getD i
            default)) = Except.ok
          (explorationPrompt
            ((createCollaborativeSociety ⟨"P", 2, false, true⟩ [echoModel]).agents.getD i
              default))) ∧
    exploreDimensions (createCollaborativeSociety ⟨"P", 2, false, true⟩ [echoModel]) [1, 0]
      = Except.ok
          { createCollaborativeSociety ⟨"P", 2, false, true⟩ [echoModel] with
            context :=
              { (createCollaborativeSociety ⟨"P", 2, false, true⟩ [echoModel]).context with
                sharedInsights := ([1, 0] : List Nat).map fun i =>
                  explorationPrompt
                    ((createCollaborativeSociety ⟨"P", 2, false, true⟩
                      [echoModel]).agents.getD i default) } } :=
  ⟨by
    intro i hi
    fin_cases hi <;> rfl,
    (exploration_insights_arrival_order
      (createCollaborativeSociety ⟨"P", 2, false, true⟩ [echoModel]) [1, 0]
      (fun i => explorationPrompt
        ((createCollaborativeSociety ⟨"P", 2, false, true⟩ [echoModel]).agents.getD i default))
      (by
        intro i hi
        fin_cases hi <;> rfl)).1⟩

theorem getD_map_lt {α β : Type} (h : α → β) {l : List α} {i : Nat} (d : α) (d' : β)
    (hi : i < l.length) : (l.map h).getD i d' = h (l.getD i d) := by
  rw [List.getD_eq_getElem _ _ (by simpa), List.getD_eq_getElem _ _ hi, List.getElem_map]

theorem integrateAnalyses_ok_of {s : SocietyGroup} {t : String}
    (hag : s.agents.length ≠ 0) (hins : s.context.sharedInsights.length ≠ 0)
    (hp : (s.agents.getD 0 default).model.process (integrationPrompt s) = Except.ok t) :
    integrateAnalyses s = Except.ok
      { s with agents := s.agents.map fun a => { a with sharedAnalysis := t } } := by
  unfold integrateAnalyses
  rw [if_neg (not_or.mpr ⟨hag, hins⟩)]
  dsimp only
  rw [hp]

theorem integrateCalls_eq {s : SocietyGroup} (hag : s.agents.length ≠ 0)
    (hins : s.context.sharedInsights.length ≠ 0) :
    integrateCalls s = [(s.agents.getD 0 default).model.name] := by
  unfold integrateCalls
  rw [if_neg (not_or.mpr ⟨hag, hins⟩)]

theorem finalResponseCalls_eq {s : SocietyGroup} (h : s.agents ≠ []) :
    finalResponseCalls s = [(s.agents.getD 0 default).model.name] := by
  unfold finalResponseCalls
  cases hs : s.agents with
  | nil => exact absurd hs h
  | cons a t => rfl

/-- C6: a collaborative run over 5 agents bound to 5 distinct capabilities
(multi-capability round-robin), all calls succeeding.  The call trace is
`[nm 0] ++ explorationCalls ++ [nm 0] ++ [nm 0]`: the first agent's
capability is invoked for the two single-agent phases (initial analysis,
integration) and once for the final response, and `explorationCalls` —
the exploration fan-out — invokes every agent's capability exactly once
(it is a permutation of the five capability names).  In total the first
capability is invoked 4 times (counting its own exploration call) and every
other capability exactly once. -/
theorem collaborative_call_counts (prompt : String) (nm : Nat → String)
    (f : Nat → String → String) (config : Config) (models : List AIModel)
    (order : List Nat)
    (hconfig : config = ⟨prompt, 5, true, true⟩)
    (hmodels : models = (List.range 5).map fun k =>
      { name := nm k, process := fun p => Except.ok (f k p) })
    (hinj : ∀ i, i < 5 → ∀ j, j < 5 → nm i = nm j → i = j)
    (horder : order.Perm (List.range 5)) :
    ∃ explorationCalls : List String,
      RunSocietyCollaborativeCalls config models order
          = [nm 0] ++ (explorationCalls ++ ([nm 0] ++ [nm 0])) ∧
      explorationCalls.Perm ((List.range 5).map nm) ∧
      (∀ k, k < 5 → explorationCalls.count (nm k) = 1) ∧
      (RunSocietyCollaborativeCalls config models order).count (nm 0) = 4 ∧
      (∀ k, 1 ≤ k → k < 5 →
        (RunSocietyCollaborativeCalls config models order).count (nm k) = 1) := by
  subst hconfig
  subst hmodels
  have hmem := mem_lt_of_perm_range horder
  have hordlen : order.length = 5 := by
    rw [horder.length_eq, List.length_range]
  have hnodup : ((List.range 5).map nm).Nodup :=
    List.Nodup.map_on
      (fun x hx y hy hxy =>
        hinj x (List.mem_range.mp hx) y (List.mem_range.mp hy) hxy)
      (List.nodup_range 5)
  have hc1 : ∀ k, k < 5 → (order.map nm).count (nm k) = 1 := by
    intro k hk
    rw [(horder.map nm).count_eq]
    exact List.count_eq_one_of_mem hnodup (List.mem_map_of_mem nm (List.mem_range.mpr hk))
  have key : ∀ s1 : SocietyGroup,
      performInitialAnalysis (createCollaborativeSociety ⟨prompt, 5, true, true⟩
        ((List.range 5).map fun k =>
          { name := nm k, process := fun p => Except.ok (f k p) })) = Except.ok s1 →
      s1.agents.length = 5 →
      (∀ i, i < 5 → (s1.agents.getD i default).model
          = { name := nm i, process := fun p => Except.ok (f i p) }) →
      ∃ explorationCalls : List String,
        RunSocietyCollaborativeCalls ⟨prompt, 5, true, true⟩
            ((List.range 5).map fun k =>
              { name := nm k, process := fun p => Except.ok (f k p) }) order
            = [nm 0] ++ (explorationCalls ++ ([nm 0] ++ [nm 0])) ∧
        explorationCalls.Perm ((List.range 5).map nm) ∧
        (∀ k, k < 5 → explorationCalls.count (nm k) = 1) ∧
        (RunSocietyCollaborativeCalls ⟨prompt, 5, true, true⟩
            ((List.range 5).map fun k =>
              { name := nm k, process := fun p => Except.ok (f k p) }) order).count (nm 0)
          = 4 ∧
        (∀ k, 1 ≤ k → k < 5 →
          (RunSocietyCollaborativeCalls ⟨prompt, 5, true, true⟩
              ((List.range 5).map fun k =>
                { name := nm k, process := fun p => Except.ok (f k p) }) order).count (nm k)
            = 1) := by
    intro s1 hs1 hlen hmod
    have hok : ∀ i ∈ order, exploreOutcome (s1.agents.getD i default)
        = Except.ok (f i (explorationPrompt (s1.agents.getD i default))) := by
      intro i hi
      rw [exploreOutcome, hmod i (hmem i hi)]
    set s2 : SocietyGroup :=
      { s1 with
        context :=
          { s1.context with
            sharedInsights :=
              List.map (fun i => f i (explorationPrompt (s1.agents.getD i default))) order } }
      with hs2
    have hexp : exploreDimensions s1 order = Except.ok s2 :=
      exploreDimensions_ok_of hok
    have hs2agents : s2.agents = s1.agents := by rw [hs2]
    have hag : s2.agents.length ≠ 0 := by
      rw [hs2agents, hlen]
      omega
    have hins : s2.context.sharedInsights.length ≠ 0 := by
      rw [hs2]
      show (order.map _).length ≠ 0
      rw [List.length_map, hordlen]
      omega
    have hp : (s2.agents.getD 0 default).model.process (integrationPrompt s2)
        = Except.ok (f 0 (integrationPrompt s2)) := by
      rw [hs2agents, hmod 0 (by omega)]
    have hint := integrateAnalyses_ok_of hag hins hp
    set s3 : SocietyGroup :=
      { s2 with agents :=
          s2.agents.map (fun a => { a with sharedAnalysis := f 0 (integrationPrompt s2) }) }
      with hs3
    have hs3len : s3.agents.length = 5 := by
      rw [hs3]
      show (s2.agents.map _).length = 5
      rw [List.length_map, hs2agents, hlen]
    have hs3ne : s3.agents ≠ [] := List.length_pos.mp (by omega)
    have hname3 : (s3.agents.getD 0 default).model.name = nm 0 := by
      rw [hs3]
      have hg := getD_map_lt
        (fun a : Agent => { a with sharedAnalysis := f 0 (integrationPrompt s2) })
        default default (show 0 < s2.agents.length by rw [hs2agents, hlen]; omega)
      show ((s2.agents.map
        (fun a : Agent => { a with sharedAnalysis := f 0 (integrationPrompt s2) })).getD 0
          default).model.name = nm 0
      rw [hg]
      show (s2.agents.getD 0 default).model.name = nm 0
      rw [hs2agents, hmod 0 (by omega)]
    have hfan : fanOutCalls s1.agents order = order.map nm := by
      unfold fanOutCalls
      apply List.map_congr_left
      intro i hi
      rw [hmod i (hmem i hi)]
    have hintc : integrateCalls s2 = [nm 0] := by
      rw [integrateCalls_eq hag hins, hs2agents, hmod 0 (by omega)]
    have hfinalc : finalResponseCalls s3 = [nm 0] := by
      rw [finalResponseCalls_eq hs3ne, hname3]
    have hcalls : RunSocietyCollaborativeCalls ⟨prompt, 5, true, true⟩
        ((List.range 5).map fun k =>
          { name := nm k, process := fun p => Except.ok (f k p) }) order
        = [nm 0] ++ (order.map nm ++ ([nm 0] ++ [nm 0])) := by
      unfold RunSocietyCollaborativeCalls
      dsimp only
      rw [hs1]
      dsimp only
      rw [hexp]
      dsimp only
      rw [hint]
      dsimp only
      rw [hfan, hintc, hfinalc]
      rfl
    refine ⟨order.map nm, hcalls, horder.map nm, hc1, ?_, ?_⟩
    · rw [hcalls]
      rw [List.count_append, List.count_append, List.count_append, hc1 0 (by omega)]
      simp [List.count_cons]
    · intro k hk1 hk5
      have hne : nm k ≠ nm 0 := by
        intro h
        have := hinj k hk5 0 (by omega) h
        omega
      rw [hcalls]
      rw [List.count_append, List.count_append, List.count_append, hc1 k hk5]
      simp [List.count_cons, hne]
  exact key _ rfl rfl (by intro i hi; interval_cases i <;> rfl)

/-- Witness for C6: five distinctly named echo capabilities, completion
order `[2, 0, 4, 1, 3]`; the first agent's capability is invoked 4 times. -/
theorem collaborative_call_counts_witness :
    (([2, 0, 4, 1, 3] : List Nat).Perm (List.range 5)
      ∧ (∀ i, i < 5 → ∀ j, j < 5 → toString i = toString j → i = j)) ∧
    (RunSocietyCollaborativeCalls ⟨"P", 5, true, true⟩
        ((List.range 5).map fun k =>
          { name := toString k, process := fun p => Except.ok p })
        [2, 0, 4, 1, 3]).count (toString 0) = 4 := by
  obtain ⟨ec, h1, h2, h3, h4, h5⟩ :=
    collaborative_call_counts "P" (fun k => toString k) (fun _ p => p)
      ⟨"P", 5, true, true⟩
      ((List.range 5).map fun k =>
        { name := toString k, process := fun p => Except.ok p })
      [2, 0, 4, 1, 3] rfl rfl (by decide) (by decide)
  exact ⟨⟨by decide, by decide⟩, h4⟩

end SocietyAI
